import Mathlib

/-!
# Verification of the `set` runtime value-assignment engine

A shallow embedding of the package's core: the type-classification cache
(`type_info.go`), the value wrapper and its capability-dispatched operations
(`value.go`: `V`, `Value.To`, `Value.Append`, `Value.Fields`,
`Value.FieldsByTag`, `Value.FieldByIndex`, `Value.Zero`, `Value.NewElem`,
`Value.Fill`, `Value.FillByTag`).

Go's reflection universe is modelled by a closed inductive universe of types
and values: booleans, fixed/platform-width signed and unsigned integers,
strings, pointers, slices, maps, structs (with exported flags and tags) and
channels (an "Other"-classified kind).  Machine integers are carried as
unbounded `Int` with explicit wrapping/clamping applied by the coercion
primitives.  Reflection panics are modelled as an explicit `crash` outcome.
-/

namespace SetPkg

/-- The subset of `reflect.Kind` the package can meet in this universe. -/
inductive GoKind : Type where
  | invalid
  | boolK
  | intK | int8K | int16K | int32K | int64K
  | uintK | uint8K | uint16K | uint32K | uint64K
  | stringK
  | ptrK
  | sliceK
  | mapK
  | structK
  | chanK
deriving DecidableEq, Repr

/-- Go types, as a closed universe: scalars, pointers, slices, maps,
structs and channels.  A struct field is
`(name, exported?, tag table, declared type)`. -/
inductive GoType : Type where
  | boolT
  | intT | int8T | int16T | int32T | int64T
  | uintT | uint8T | uint16T | uint32T | uint64T
  | stringT
  | ptrT (elem : GoType)
  | sliceT (elem : GoType)
  | mapT (key elem : GoType)
  | structT (fields : List (String × Bool × List (String × String) × GoType))
  | chanT (elem : GoType)
deriving Repr

instance : Inhabited GoType := ⟨GoType.boolT⟩

/-- A struct-field declaration: name, exported flag, tag table, declared type. -/
abbrev FieldDecl := String × Bool × List (String × String) × GoType

/-- The name of a field declaration. -/
def FieldDecl.fname (f : FieldDecl) : String := f.1

/-- Whether the field is exported (visible). -/
def FieldDecl.exported (f : FieldDecl) : Bool := f.2.1

/-- The tag table of the field. -/
def FieldDecl.tags (f : FieldDecl) : List (String × String) := f.2.2.1

/-- The declared type of the field. -/
def FieldDecl.ftype (f : FieldDecl) : GoType := f.2.2.2

mutual

/-- Boolean equality on `GoType` (identity of Go types). -/
def GoType.beq : GoType → GoType → Bool
  | .boolT, .boolT => true
  | .intT, .intT => true
  | .int8T, .int8T => true
  | .int16T, .int16T => true
  | .int32T, .int32T => true
  | .int64T, .int64T => true
  | .uintT, .uintT => true
  | .uint8T, .uint8T => true
  | .uint16T, .uint16T => true
  | .uint32T, .uint32T => true
  | .uint64T, .uint64T => true
  | .stringT, .stringT => true
  | .ptrT a, .ptrT b => GoType.beq a b
  | .sliceT a, .sliceT b => GoType.beq a b
  | .mapT k a, .mapT l b => GoType.beq k l && GoType.beq a b
  | .structT fs, .structT gs => GoType.beqFields fs gs
  | .chanT a, .chanT b => GoType.beq a b
  | _, _ => false

/-- Boolean equality on struct-field declaration lists. -/
def GoType.beqFields : List FieldDecl → List FieldDecl → Bool
  | [], [] => true
  | f :: fs, g :: gs =>
    f.1 == g.1 && f.2.1 == g.2.1 && f.2.2.1 == g.2.2.1 &&
      GoType.beq f.2.2.2 g.2.2.2 && GoType.beqFields fs gs
  | _, _ => false

end

set_option maxHeartbeats 1600000 in
theorem GoType.beqT_iff : ∀ a b : GoType, (GoType.beq a b = true ↔ a = b) := by
  apply GoType.beq.induct
    (motive_1 := fun a b => (GoType.beq a b = true ↔ a = b))
    (motive_2 := fun fs gs => (GoType.beqFields fs gs = true ↔ fs = gs))
  case case18 =>
    intro t x h1 h2 h3 h4 h5 h6 h7 h8 h9 h10 h11 h12 h13 h14 h15 h16 h17
    cases t <;> cases x <;>
      first
        | exact (h1 rfl rfl).elim
        | exact (h2 rfl rfl).elim
        | exact (h3 rfl rfl).elim
        | exact (h4 rfl rfl).elim
        | exact (h5 rfl rfl).elim
        | exact (h6 rfl rfl).elim
        | exact (h7 rfl rfl).elim
        | exact (h8 rfl rfl).elim
        | exact (h9 rfl rfl).elim
        | exact (h10 rfl rfl).elim
        | exact (h11 rfl rfl).elim
        | exact (h12 rfl rfl).elim
        | exact (h13 _ _ rfl rfl).elim
        | exact (h14 _ _ rfl rfl).elim
        | exact (h15 _ _ _ _ rfl rfl).elim
        | exact (h16 _ _ rfl rfl).elim
        | exact (h17 _ _ rfl rfl).elim
        | simp [GoType.beq]
  case case20 =>
    intro f fs g gs ih1 ih2
    simp [GoType.beqFields, Prod.ext_iff, ih1, ih2] <;> tauto
  case case21 =>
    intro t x h1 h2
    cases t <;> cases x <;>
      first
        | exact (h1 rfl rfl).elim
        | exact (h2 _ _ _ _ rfl rfl).elim
        | simp [GoType.beqFields]
  all_goals intros <;> simp_all [GoType.beq, GoType.beqFields]

instance : DecidableEq GoType := fun a b =>
  decidable_of_iff _ (GoType.beqT_iff a b)

/-- Go values of the universe.  Numeric values carry their Go type and an
unbounded integer; a nil pointer is `ptrV t none`; a nil slice is
`sliceV t []`.  Map and channel values are opaque beyond their type, which is
all the package's algorithms inspect. -/
inductive GoVal : Type where
  | boolV (b : Bool)
  | numV (t : GoType) (n : Int)
  | stringV (s : String)
  | ptrV (elem : GoType) (v : Option GoVal)
  | sliceV (elem : GoType) (elems : List GoVal)
  | mapV (key elem : GoType)
  | structV (fields : List FieldDecl) (vals : List GoVal)
  | chanV (elem : GoType)
deriving Repr

instance : Inhabited GoVal := ⟨GoVal.boolV false⟩

mutual

/-- Boolean equality on `GoVal`. -/
def GoVal.beq : GoVal → GoVal → Bool
  | .boolV a, .boolV b => a == b
  | .numV t n, .numV u m => t == u && n == m
  | .stringV a, .stringV b => a == b
  | .ptrV t v, .ptrV u w => t == u && GoVal.beqOpt v w
  | .sliceV t vs, .sliceV u ws => t == u && GoVal.beqList vs ws
  | .mapV k e, .mapV l f => k == l && e == f
  | .structV fs vs, .structV gs ws => fs == gs && GoVal.beqList vs ws
  | .chanV a, .chanV b => a == b
  | _, _ => false

/-- Boolean equality on optional values. -/
def GoVal.beqOpt : Option GoVal → Option GoVal → Bool
  | none, none => true
  | some v, some w => GoVal.beq v w
  | _, _ => false

/-- Boolean equality on value lists. -/
def GoVal.beqList : List GoVal → List GoVal → Bool
  | [], [] => true
  | v :: vs, w :: ws => GoVal.beq v w && GoVal.beqList vs ws
  | _, _ => false

end

set_option maxHeartbeats 1600000 in
theorem GoVal.beqV_iff : ∀ a b : GoVal, (GoVal.beq a b = true ↔ a = b) := by
  apply GoVal.beq.induct
    (motive_1 := fun a b => (GoVal.beq a b = true ↔ a = b))
    (motive_2 := fun vs ws => (GoVal.beqList vs ws = true ↔ vs = ws))
    (motive_3 := fun v w => (GoVal.beqOpt v w = true ↔ v = w))
  case case9 =>
    intro t x h1 h2 h3 h4 h5 h6 h7 h8
    cases t <;> cases x <;>
      first
        | exact (h1 _ _ rfl rfl).elim
        | exact (h2 _ _ _ _ rfl rfl).elim
        | exact (h3 _ _ rfl rfl).elim
        | exact (h4 _ _ _ _ rfl rfl).elim
        | exact (h5 _ _ _ _ rfl rfl).elim
        | exact (h6 _ _ _ _ rfl rfl).elim
        | exact (h7 _ _ _ _ rfl rfl).elim
        | exact (h8 _ _ rfl rfl).elim
        | simp [GoVal.beq]
  case case12 =>
    intro v w h1 h2
    cases v <;> cases w <;>
      first
        | exact (h1 rfl rfl).elim
        | exact (h2 _ _ rfl rfl).elim
        | simp [GoVal.beqOpt]
  case case15 =>
    intro vs ws h1 h2
    cases vs <;> cases ws <;>
      first
        | exact (h1 rfl rfl).elim
        | exact (h2 _ _ _ _ rfl rfl).elim
        | simp [GoVal.beqList]
  all_goals intros <;> simp_all [GoVal.beq, GoVal.beqOpt, GoVal.beqList]

instance : DecidableEq GoVal := fun a b =>
  decidable_of_iff _ (GoVal.beqV_iff a b)

/-- The dynamic (declared) type of a value, i.e. `reflect.TypeOf`. -/
def GoVal.typeOf : GoVal → GoType
  | .boolV _ => .boolT
  | .numV t _ => t
  | .stringV _ => .stringT
  | .ptrV t _ => .ptrT t
  | .sliceV t _ => .sliceT t
  | .mapV k e => .mapT k e
  | .structV fs _ => .structT fs
  | .chanV t => .chanT t

/-- The top-level `reflect.Kind` of a type. -/
def kindOfType : GoType → GoKind
  | .boolT => .boolK
  | .intT => .intK
  | .int8T => .int8K
  | .int16T => .int16K
  | .int32T => .int32K
  | .int64T => .int64K
  | .uintT => .uintK
  | .uint8T => .uint8K
  | .uint16T => .uint16K
  | .uint32T => .uint32K
  | .uint64T => .uint64K
  | .stringT => .stringK
  | .ptrT _ => .ptrK
  | .sliceT _ => .sliceK
  | .mapT _ _ => .mapK
  | .structT _ => .structK
  | .chanT _ => .chanK

/-- Helper size bound: the declared type of a member field is smaller than
the struct type that declares it. -/
theorem sizeOf_ftype_lt_structT {f : FieldDecl}
    {fs : List FieldDecl} (h : f ∈ fs) :
    sizeOf f.2.2.2 < sizeOf (GoType.structT fs) := by
  have h1 : sizeOf f < sizeOf fs := List.sizeOf_lt_of_mem h
  obtain ⟨a, b, c, t⟩ := f
  simp only [Prod.mk.sizeOf_spec] at h1
  simp only [GoType.structT.sizeOf_spec]
  omega

/-- `reflect.Zero(t)`: the zero value of a type.  A struct's zero value has
every field at its own zero value. -/
def zeroValue : GoType → GoVal
  | .boolT => .boolV false
  | .intT => .numV .intT 0
  | .int8T => .numV .int8T 0
  | .int16T => .numV .int16T 0
  | .int32T => .numV .int32T 0
  | .int64T => .numV .int64T 0
  | .uintT => .numV .uintT 0
  | .uint8T => .numV .uint8T 0
  | .uint16T => .numV .uint16T 0
  | .uint32T => .numV .uint32T 0
  | .uint64T => .numV .uint64T 0
  | .stringT => .stringV ""
  | .ptrT t => .ptrV t none
  | .sliceT t => .sliceV t []
  | .mapT k e => .mapV k e
  | .structT fs => .structV fs (fs.attach.map (fun f => zeroValue f.1.2.2.2))
  | .chanT t => .chanV t
termination_by t => sizeOf t
decreasing_by
  exact sizeOf_ftype_lt_structT f.2

/-- The zero value of a type has that type. -/
theorem typeOf_zeroValue (t : GoType) : (zeroValue t).typeOf = t := by
  cases t <;> simp [zeroValue, GoVal.typeOf]

/-- The type at the end of a pointer-indirection chain. -/
def resolvedBase : GoType → GoType
  | .ptrT t => resolvedBase t
  | t => t

theorem sizeOf_resolvedBase_le : ∀ t : GoType, sizeOf (resolvedBase t) ≤ sizeOf t := by
  intro t
  induction t using resolvedBase.induct
  · rename_i t ih
    rw [show resolvedBase (GoType.ptrT t) = resolvedBase t from rfl]
    have : sizeOf t < sizeOf (GoType.ptrT t) := by
      simp only [GoType.ptrT.sizeOf_spec]; omega
    omega
  · rename_i t h
    cases t <;> first | exact ((h _ rfl).elim) | simp [resolvedBase]

/-- Dereference a value through its pointer chain (`reflect.Indirect` applied
until the kind is no longer `Ptr`); `none` when a nil pointer is met. -/
def derefVal : GoVal → Option GoVal
  | .ptrV _ none => none
  | .ptrV _ (some v) => derefVal v
  | v => some v

theorem sizeOf_derefVal_le : ∀ {a dv : GoVal}, derefVal a = some dv → sizeOf dv ≤ sizeOf a := by
  intro a
  induction a using derefVal.induct <;> intro dv h
  · simp [derefVal] at h
  · rename_i t v ih
    rw [show derefVal (GoVal.ptrV t (some v)) = derefVal v from rfl] at h
    have h1 := ih h
    have h2 : sizeOf v < sizeOf (GoVal.ptrV t (some v)) := by
      simp only [GoVal.ptrV.sizeOf_spec, Option.some.sizeOf_spec]
      omega
    omega
  · rename_i v h1 h2
    cases v <;> simp_all [derefVal]

/-- Follow a pointer chain to its final storage, allocating fresh zero
storage for every nil pointer met (`reflect.New` + `Set` in the source's
chain-instantiation loops).  `t` is the declared pointee type, `v` the
current pointee. -/
def followChain : GoType → Option GoVal → GoVal
  | .ptrT t2, none => followChain t2 none
  | t, none => zeroValue t
  | _, some (.ptrV t2 inner) => followChain t2 inner
  | _, some v => v
termination_by t v => sizeOf t + sizeOf v
decreasing_by
  · simp only [GoType.ptrT.sizeOf_spec]; omega
  · simp only [GoVal.ptrV.sizeOf_spec, Option.some.sizeOf_spec]; omega

/-- Rebuild the declared pointer chain around a base value
(the shape produced when the chain-allocating wrapper committed `v` at the
end of a freshly allocated chain of declared type `t`). -/
def rewrapPtr : GoType → GoVal → GoVal
  | .ptrT t, v => .ptrV t (some (rewrapPtr t v))
  | _, v => v

/-- `TypeInfo` of `type_info.go`: the memoized structural descriptor of a
type.  The zero descriptor (`Kind = Invalid`, nil `Type`) is what
`Stat(nil)` returns. -/
structure TypeInfo : Type where
  isScalar : Bool := false
  isMap : Bool := false
  isSlice : Bool := false
  isStruct : Bool := false
  kind : GoKind := .invalid
  type : Option GoType := none
  elemType : Option GoType := none
  structFields : List FieldDecl := []
deriving DecidableEq, Repr

instance : Inhabited TypeInfo := ⟨{}⟩

/-- Whether a kind is in the closed scalar set of `TypeInfo.IsScalar`. -/
def scalarKind : GoKind → Bool
  | .boolK => true
  | .intK | .int8K | .int16K | .int32K | .int64K => true
  | .uintK | .uint8K | .uint16K | .uint32K | .uint64K => true
  | .stringK => true
  | _ => false

/-- `typeInfoCache.StatType`: resolves the pointer chain (the source walks a
fresh `reflect.New` temporary, whose allocation is invisible to callers),
then classifies the final kind and records element type / field list.
The `sync.Map` memoization is semantically transparent (same descriptor on
every call), so the cache is embedded as the pure computation itself.
Note the struct branch copies **every** declared field, exported or not. -/
def statType : GoType → TypeInfo
  | .ptrT t => statType t
  | t =>
    { isMap := kindOfType t == .mapK
      isSlice := kindOfType t == .sliceK
      isStruct := kindOfType t == .structK
      isScalar := scalarKind (kindOfType t)
      kind := kindOfType t
      type := some t
      elemType :=
        match t with
        | .sliceT e => some e
        | .mapT _ e => some e
        | _ => none
      structFields :=
        match t with
        | .structT fs => fs
        | _ => []
    }

/-- `typeInfoCache.Stat`: `reflect.TypeOf` of the argument, then `StatType`;
an untyped-nil argument has no type and yields the zero descriptor. -/
def stat : Option GoVal → TypeInfo
  | none => {}
  | some v => statType v.typeOf

/-- `Stat` seen together with its effect on the caller's argument.  The
source's `Stat` body is `t := reflect.TypeOf(T); return me.StatType(t)`:
it reads only the dynamic type of the argument, and `StatType` walks a
fresh `reflect.New` temporary, so the caller's value is returned unchanged
— there is no write through the argument anywhere in the call. -/
def statEffect (v : Option GoVal) : TypeInfo × Option GoVal :=
  (stat v, v)

theorem statType_ptrT (t : GoType) : statType (.ptrT t) = statType t := rfl

/-- The discriminable fault kinds returned by the package (the external
`errors` collaborator is reduced to its discriminating payloads;
`errors.Go` re-wrapping is semantically the identity on the fault kind). -/
inductive Err : Type where
  | nilReceiver
  | notAssignable
  | unsupported (method : String)
  | coercion (target : GoKind)
  | zeroLenIndex
  | indexOutOfBounds (len idx : Int)
  | notStruct
  | notFillable (key : String)
  | recovered
deriving DecidableEq, Repr

/-- The outcome of a state-mutating operation: normal return, an error
return, or a propagating reflection panic (`crash`); each carries the
post-state of the destination. -/
inductive Outcome (α : Type) : Type where
  | ok (a : α)
  | fault (e : Err) (a : α)
  | crash (a : α)
deriving DecidableEq, Repr

/-- The result of a wrapper-level call that may also panic before any
state exists (nil-receiver dereference). -/
inductive OpResult (α : Type) : Type where
  | ok (a : α)
  | fault (e : Err)
  | crash
deriving DecidableEq, Repr

/-- Numeric classification of a type: `some (isUnsigned, bits)` for the
integer types (platform-width `int`/`uint` modelled as 64-bit). -/
def numClass : GoType → Option (Bool × Nat)
  | .intT => some (false, 64)
  | .int8T => some (false, 8)
  | .int16T => some (false, 16)
  | .int32T => some (false, 32)
  | .int64T => some (false, 64)
  | .uintT => some (true, 64)
  | .uint8T => some (true, 8)
  | .uint16T => some (true, 16)
  | .uint32T => some (true, 32)
  | .uint64T => some (true, 64)
  | _ => none

/-- Modelled from the spec: the numeric narrowing policy of the coercion
primitives (§4.4, §8, examples).  A negative value coerced into an unsigned
destination yields `0` (no wrap-around, per the `ExampleUint_Set_*` outputs);
otherwise the value is silently truncated to the destination's width. -/
def normNum (t : GoType) (n : Int) : Int :=
  match numClass t with
  | some (true, w) => if n < 0 then 0 else n % ((2 : Int) ^ w)
  | some (false, w) => (n + (2 : Int) ^ (w - 1)) % (2 : Int) ^ w - (2 : Int) ^ (w - 1)
  | none => n

/-- All characters are decimal digits and the list is non-empty. -/
def decDigits (cs : List Char) : Bool :=
  !cs.isEmpty && cs.all (fun c => c.isDigit)

/-- Value of a decimal digit string. -/
def digitsVal (cs : List Char) : Nat :=
  cs.foldl (fun acc c => 10 * acc + (c.toNat - 48)) 0

/-- Modelled from the spec: `strconv.ParseInt`-style decimal integer grammar
(optional sign, decimal digits). -/
def parseIntStr (s : String) : Option Int :=
  match s.toList with
  | '-' :: cs => if decDigits cs then some (-(digitsVal cs : Int)) else none
  | '+' :: cs => if decDigits cs then some ((digitsVal cs : Int)) else none
  | cs => if decDigits cs then some ((digitsVal cs : Int)) else none

/-- Modelled from the spec: a float-looking string (`strconv.ParseFloat`
decimal grammar, exponents omitted) parsed and truncated toward zero, which
is the integer part with the sign of the literal (§4.4: a float-looking
string targeting an integer destination parses as float and truncates). -/
def parseFloatTrunc (s : String) : Option Int :=
  let core : List Char → Option Int := fun cs =>
    match cs.splitOn '.' with
    | [ip, fp] =>
      if (decDigits ip || ip.isEmpty) && (decDigits fp || fp.isEmpty) &&
          !(ip.isEmpty && fp.isEmpty) then
        some (digitsVal ip : Int)
      else none
    | [ip] => if decDigits ip then some ((digitsVal ip : Int)) else none
    | _ => none
  match s.toList with
  | '-' :: cs => (core cs).map (fun n => -n)
  | '+' :: cs => core cs
  | cs => core cs

/-- Modelled from the spec: `strconv.ParseBool` accepts exactly these
textual forms. -/
def parseBoolStr (s : String) : Option Bool :=
  if s = "1" ∨ s = "t" ∨ s = "T" ∨ s = "TRUE" ∨ s = "true" ∨ s = "True" then some true
  else if s = "0" ∨ s = "f" ∨ s = "F" ∨ s = "FALSE" ∨ s = "false" ∨ s = "False" then some false
  else none

/-- Textual representation of a scalar (`numeric/boolean → string`). -/
def reprScalar : GoVal → Option String
  | .boolV b => some (if b then "true" else "false")
  | .numV _ n => some (toString n)
  | .stringV s => some s
  | _ => none

/-- Modelled from the spec: the coercion primitives (§4.4) are in a source
file not present under `src/` (only their caller `Value.To` is).  Converts
one resolved scalar value into the target scalar type:
numeric↔numeric silently truncating (`normNum`), boolean→numeric as 1/0,
numeric→boolean as nonzero-test, string→numeric by integer grammar first
then float grammar with truncation toward zero, string→boolean by
`ParseBool` grammar, scalar→string by standard textual representation;
every other combination is a Coercion fault naming the target kind. -/
def coerce (t : GoType) (src : GoVal) : Except Err GoVal :=
  match numClass t with
  | some _ =>
    match src with
    | .boolV b => .ok (.numV t (if b then 1 else 0))
    | .numV _ n => .ok (.numV t (normNum t n))
    | .stringV s =>
      match parseIntStr s with
      | some n => .ok (.numV t (normNum t n))
      | none =>
        match parseFloatTrunc s with
        | some n => .ok (.numV t (normNum t n))
        | none => .error (.coercion (kindOfType t))
    | _ => .error (.coercion (kindOfType t))
  | none =>
    match t with
    | .boolT =>
      match src with
      | .boolV b => .ok (.boolV b)
      | .numV _ n => .ok (.boolV (decide (n ≠ 0)))
      | .stringV s =>
        match parseBoolStr s with
        | some b => .ok (.boolV b)
        | none => .error (.coercion .boolK)
      | _ => .error (.coercion .boolK)
    | .stringT =>
      match reprScalar src with
      | some s => .ok (.stringV s)
      | none => .error (.coercion .stringK)
    | _ => .error (.coercion (kindOfType t))

/-- Last element of a getLast? result is a member of the list. -/
theorem mem_of_getLast?_eq {α : Type} {l : List α} {a : α}
    (h : l.getLast? = some a) : a ∈ l := by
  induction l with
  | nil => simp [List.getLast?] at h
  | cons x xs ih =>
    cases xs with
    | nil => simp_all [List.getLast?]
    | cons y ys =>
      rw [List.getLast?_cons_cons] at h
      exact List.mem_cons_of_mem x (ih h)

/-- The per-element append loop of `Value.To`'s slice branch, folded over
the elements' recursive outcomes: each successfully coerced element is
appended to the destination in turn (`reflect.Append` panics on an element
whose type is not the declared element type, which happens exactly when the
element type is a pointer type, since the freshly built element wrapper
holds base-typed storage); the first element fault zeroes the destination
and returns the error (`me.Zero()` before `return err` in the source); an
element panic propagates with the partial appends in place. -/
def combineSlice (et : GoType) : List (Outcome GoVal) → List GoVal → Outcome GoVal
  | [], acc => .ok (.sliceV et acc)
  | r :: rest, acc =>
    match r with
    | .ok v =>
      if v.typeOf == et then combineSlice et rest (acc ++ [v])
      else .crash (.sliceV et acc)
    | .fault e _ => .fault e (.sliceV et [])
    | .crash _ => .crash (.sliceV et acc)

/-- `Value.To` for a writable destination of (resolved) type `t`, as a
function from the source argument to the outcome carrying the final value
of the destination.  The destination's prior value is irrelevant: the
source zeroes it first (`me.Zero()`), so the state starts at
`zeroValue t` on every path.

Faithful to the source's branch order:
nil / invalid-classification source → zero; assignable fast path when the
destination is not a slice (`reflect.Set` panics when the argument's
declared type differs from the resolved one it was classified to, i.e. the
argument is a pointer); pointer dereference with nil check; slice
destination (wrapping a non-sequence source as a one-element sequence of
the *original* argument, and panicking on `Len` when the classification
says sequence but the original argument is a pointer to one); sequence
collapse onto the last element for non-slice destinations; otherwise the
coercion primitives. -/
def toFn (t : GoType) (arg : Option GoVal) : Outcome GoVal :=
  match arg with
  | none => .ok (zeroValue t)
  | some a =>
    let dTI := stat (some a)
    if dTI.kind == GoKind.invalid then .ok (zeroValue t)
    else if dTI.type == some t && !(kindOfType t == GoKind.sliceK) then
      (if a.typeOf == t then .ok a else .crash (zeroValue t))
    else
      match hd : derefVal a with
      | none => .ok (zeroValue t)
      | some dv =>
        match t with
        | .sliceT et =>
          match (if dTI.isSlice then
                   match a with
                   | .sliceV _ vs => some vs
                   | _ => none
                 else some [a]) with
          | none => .crash (zeroValue (.sliceT et))
          | some items =>
            combineSlice et
              (items.attach.map (fun i => toFn (resolvedBase et) (some i.1))) []
        | t =>
          if dTI.kind == GoKind.sliceK then
            match dv with
            | .sliceV _ vs =>
              match hl : vs.getLast? with
              | some l => toFn t (some l)
              | none => .ok (zeroValue t)
            | _ => .crash (zeroValue t)
          else
            match coerce t dv with
            | .ok v => .ok v
            | .error e => .fault e (zeroValue t)
termination_by (sizeOf t, sizeOf arg)
decreasing_by
  · apply Prod.Lex.left
    have h1 := sizeOf_resolvedBase_le et
    simp only [GoType.sliceT.sizeOf_spec]
    omega
  · apply Prod.Lex.right
    have h1 := sizeOf_derefVal_le hd
    have h3 := List.sizeOf_lt_of_mem (mem_of_getLast?_eq hl)
    simp only [GoVal.sliceV.sizeOf_spec] at h1
    simp only [Option.some.sizeOf_spec]
    omega

/-- The resolved type recorded by `StatType` is the end of the pointer chain. -/
theorem statType_type : ∀ t : GoType, (statType t).type = some (resolvedBase t) := by
  intro t
  induction t using resolvedBase.induct
  · rename_i t ih
    rw [statType_ptrT, ih]
    rfl
  · rename_i t h
    cases t <;> first | exact ((h _ rfl).elim) | rfl

/-- Resolution is idempotent. -/
theorem resolvedBase_idem : ∀ t : GoType, resolvedBase (resolvedBase t) = resolvedBase t := by
  intro t
  induction t using resolvedBase.induct
  · rename_i t ih
    simpa [resolvedBase] using ih
  · rename_i t h
    cases t <;> first | exact ((h _ rfl).elim) | rfl

/-- An element type recorded by `StatType` comes from a resolved slice or
map type. -/
theorem statType_elemType : ∀ {t e : GoType},
    (statType t).elemType = some e →
    resolvedBase t = .sliceT e ∨ ∃ k, resolvedBase t = .mapT k e := by
  intro t
  induction t using resolvedBase.induct
  · rename_i t ih
    intro e h
    rw [statType_ptrT] at h
    simpa [resolvedBase] using ih h
  · rename_i t h2
    intro e h
    cases t <;>
      first
        | exact ((h2 _ rfl).elim)
        | simp_all [statType, resolvedBase]


/-- The `Value` wrapper: the embedded descriptor (`TypeInfo`), the
writability flag, the current contents of the writable location
(`WriteValue` — in the Go source this is a view of the caller's storage; in
the embedding it is the explicit state threaded through the operations),
the element descriptor, and whether the original argument was nil.  The
source's per-capability method slots are bound at construction from exactly
the descriptor's classification flags and `CanWrite`, so the embedding
dispatches on those fields directly. -/
structure Value : Type where
  typeInfo : TypeInfo := {}
  canWrite : Bool := false
  writeVal : GoVal := GoVal.boolV false
  elemTypeInfo : TypeInfo := {}
  originalNil : Bool := false
deriving DecidableEq, Repr

instance : Inhabited Value := ⟨{}⟩

/-- Modelled from the spec: `Writable` (§4.2) lives in a source file not
present under `src/`.  A location is writable iff the original argument is
a pointer (to existing or allocatable storage); the write value is the
storage at the end of the chain, allocating zero storage for nil links
(matching `V`'s doc comment: passing the address of an unallocated pointer
creates memory), and the descriptor describes the resolved type. -/
def Writable (v : GoVal) : GoVal × TypeInfo × Bool :=
  match v with
  | .ptrV t inner => (followChain t inner, statType (.ptrT t), true)
  | w => (w, statType w.typeOf, false)

/-- The element descriptor attached by `V` when the classification is Map
or Slice: `TypeCache.StatType(rv.ElemType)`. -/
def elemInfoOf (ti : TypeInfo) : TypeInfo :=
  match ti.elemType with
  | some et => statType et
  | none => {}

/-- `V`: wraps an argument.  `none` models `V(nil)` (`reflect.ValueOf(nil)`
is invalid: zero descriptor, not writable, every capability unsupported). -/
def V (arg : Option GoVal) : Value :=
  match arg with
  | none => { originalNil := true }
  | some v =>
    let w := Writable v
    { typeInfo := w.2.1
      canWrite := w.2.2
      writeVal := w.1
      elemTypeInfo := elemInfoOf w.2.1
      originalNil := false }

/-- Modelled from the spec: `V` applied to an addressable, settable
`reflect.Value` (as produced by `reflect.New` or a field walk): a writable
wrapper of the value's type. -/
def VReflect (v : GoVal) : Value :=
  let ti := statType v.typeOf
  { typeInfo := ti
    canWrite := true
    writeVal := v
    elemTypeInfo := elemInfoOf ti
    originalNil := false }

/-- Modelled from the spec: `V` applied to the addressable `reflect.Value`
of a struct field (`fieldsSupported` does `V(me.WriteValue.Field(k))`).
The field is settable iff the parent is writable and the field is exported;
when settable, the field's pointer chain is resolved, allocating nil links.
The descriptor is that of the field's declared type (which reflection
guarantees is the dynamic type of the field's value). -/
def VField (parentWrite : Bool) (f : FieldDecl) (v : GoVal) : Value :=
  let cw := parentWrite && f.exported
  let ti := statType f.ftype
  { typeInfo := ti
    canWrite := cw
    writeVal :=
      if cw then
        match v with
        | .ptrV t inner => followChain t inner
        | w => w
      else v
    elemTypeInfo := elemInfoOf ti
    originalNil := false }

/-- `Value.Zero` dispatch target: `zeroSupported` iff `CanWrite` was set at
construction, else `zeroUnsupported` (an Unsupported fault).
`reflect.Zero` of a nil type would panic (unreachable for wrappers built by
`V`). -/
def Value.zeroFn (me : Value) : Outcome Value :=
  if me.canWrite then
    match me.typeInfo.type with
    | some t => .ok { me with writeVal := zeroValue t }
    | none => .crash me
  else .fault (.unsupported "Zero") me

/-- `Value.To` at the wrapper level: nil-original guard, destructive
`Zero()`, then the core assignment `toFn` on the resolved destination
type. -/
def Value.toOp (me : Value) (arg : Option GoVal) : Outcome Value :=
  if me.originalNil then .fault (.unsupported "To") me
  else
    match me.zeroFn with
    | .fault e me2 => .fault e me2
    | .crash me2 => .crash me2
    | .ok _ =>
      match me.typeInfo.type with
      | some t =>
        (match toFn t arg with
         | .ok v => .ok { me with writeVal := v }
         | .fault e v => .fault e { me with writeVal := v }
         | .crash v => .crash { me with writeVal := v })
      | none => .crash me

/-- The item loop of `appendSupported`: each item is coerced through a
fresh element wrapper (`V(reflect.New(me.ElemType))`, whose resolved
destination type is the base of the declared element type) and, on
success, the declared-type element (`reflect.Indirect(elemAsValue.TopValue)`,
i.e. the allocated chain around the coerced base) is collected; the first
failure aborts the loop, and a reflection panic is converted by the
deferred `recover` into a returned error. -/
def appendLoop (et : GoType) : List GoVal → Except Err (List GoVal)
  | [] => .ok []
  | item :: rest =>
    match toFn (resolvedBase et) (some item) with
    | .ok v =>
      match appendLoop et rest with
      | .ok acc => .ok (rewrapPtr et v :: acc)
      | .error e => .error e
    | .fault e _ => .error e
    | .crash _ => .error .recovered

/-- `Value.Append` dispatch target: `appendSupported` iff the
classification is Slice (and only Slice), else `appendUnsupported`.  All
items are coerced into a fresh accumulator starting from
`reflect.Zero(me.Type)` and committed with one `AppendSlice` + `Set` only
after every item succeeded; `Set` on a non-writable location panics and is
recovered into an error, leaving the destination untouched. -/
def Value.appendFn (me : Value) (items : List GoVal) : Outcome Value :=
  if me.typeInfo.isSlice then
    match me.typeInfo.elemType with
    | some et =>
      match appendLoop et items with
      | .error e => .fault e me
      | .ok news =>
        if me.canWrite then
          match me.writeVal with
          | .sliceV et0 old =>
            if et0 == et then .ok { me with writeVal := .sliceV et0 (old ++ news) }
            else .fault .recovered me
          | _ => .fault .recovered me
        else .fault .recovered me
    | none => .fault .recovered me
  else .fault (.unsupported "Append") me

/-- `Value.NewElem` dispatch target: `newElemSupported`
(`V(reflect.New(me.ElemType))`) iff the classification is Map or Slice. -/
def Value.newElemFn (me : Value) : OpResult Value :=
  if me.typeInfo.isMap || me.typeInfo.isSlice then
    match me.typeInfo.elemType with
    | some et => .ok (V (some (.ptrV et (some (zeroValue et)))))
    | none => .crash
  else .fault (.unsupported "NewElem")

/-- A `Field` as produced by field enumeration: the sub-wrapper, the
struct-field metadata and (for `FieldsByTag`) the realized tag value. -/
structure Field : Type where
  value : Value
  name : String
  exported : Bool
  tags : List (String × String)
  tagValue : String := ""
deriving DecidableEq, Repr

/-- `fieldsSupported`: iterates `me.Type.NumField()` — every declared
field, exported or not — pairing each `reflect.StructField` with a wrapper
of the corresponding value slot.  Returns nil when the classification is
not Struct. -/
def Value.fieldsFn (me : Value) : List Field :=
  if me.typeInfo.isStruct then
    match me.writeVal with
    | .structV _ vs =>
      (me.typeInfo.structFields.zip vs).map (fun fv =>
        { value := VField me.canWrite fv.1 fv.2
          name := fv.1.fname
          exported := fv.1.exported
          tags := fv.1.tags })
    | _ => []
  else []

/-- `fieldsByTagSupported`: the fields whose tag table has the key, with
the realized tag value. -/
def Value.fieldsByTagFn (me : Value) (key : String) : List Field :=
  me.fieldsFn.filterMap (fun f =>
    match f.tags.lookup key with
    | some tv => some { f with tagValue := tv }
    | none => none)

/-- The path walk of `Value.FieldByIndex`.  At each step: a non-struct
cursor is a shape fault; an index strictly greater than the field count is
an index-bounds fault; but an index *equal* to the field count, or a
negative index, passes the source's `n > v.NumField()` check and panics
inside `reflect.Value.Field`.  A pointer-typed field is resolved by
allocating nil links before descending. -/
def fbiWalk : GoVal → List Int → Outcome GoVal
  | v, [] => .ok v
  | v, n :: rest =>
    match v with
    | .structV fs vs =>
      if (fs.length : Int) < n then .fault (.indexOutOfBounds (fs.length : Int) n) v
      else if 0 ≤ n ∧ n < (fs.length : Int) then
        match vs[n.toNat]? with
        | some fv =>
          fbiWalk (match fv with
                   | .ptrV t inner => followChain t inner
                   | w => w) rest
        | none => .crash v
      else .crash v
    | _ => .fault .notStruct v

/-- Lift a wrapper-level outcome to the optional-receiver level. -/
def liftOpt : Outcome Value → Outcome (Option Value)
  | .ok v => .ok (some v)
  | .fault e v => .fault e (some v)
  | .crash v => .crash (some v)

/-- `Value.Append` with receiver: explicit nil-receiver guard. -/
def ValueAppend (me : Option Value) (items : List GoVal) : Outcome (Option Value) :=
  match me with
  | none => .fault .nilReceiver none
  | some me => liftOpt (me.appendFn items)

/-- `Value.Zero` with receiver: explicit nil-receiver guard. -/
def ValueZero (me : Option Value) : Outcome (Option Value) :=
  match me with
  | none => .fault .nilReceiver none
  | some me => liftOpt me.zeroFn

/-- `Value.NewElem` with receiver: explicit nil-receiver guard. -/
def ValueNewElem (me : Option Value) : OpResult Value :=
  match me with
  | none => .fault .nilReceiver
  | some me => me.newElemFn

/-- `Value.FieldByIndex` with receiver: nil-receiver guard, writability
guard, empty-path guard, then the walk; the resulting location is wrapped
with `V`. -/
def ValueFieldByIndex (me : Option Value) (index : List Int) : OpResult Value :=
  match me with
  | none => .fault .nilReceiver
  | some me =>
    if !me.canWrite then .fault .notAssignable
    else if index.length = 0 then .fault .zeroLenIndex
    else
      match fbiWalk me.writeVal index with
      | .ok v => .ok (VReflect v)
      | .fault e _ => .fault e
      | .crash _ => .crash

/-- `Value.Fields` with receiver: the body is `return me.methodFields()`,
which dereferences the method slot of a nil receiver — a panic, not a
nil-receiver fault. -/
def ValueFields : Option Value → OpResult (List Field)
  | none => .crash
  | some me => .ok me.fieldsFn

/-- `Value.FieldsByTag` with receiver: same nil-receiver dereference as
`Fields`. -/
def ValueFieldsByTag : Option Value → String → OpResult (List Field)
  | none, _ => .crash
  | some me, key => .ok (me.fieldsByTagFn key)

/-- `Value.To` with receiver: the body reads `me.original` without a nil
guard, so a nil receiver panics. -/
def ValueTo (me : Option Value) (arg : Option GoVal) : Outcome (Option Value) :=
  match me with
  | none => .crash none
  | some me => liftOpt (me.toOp arg)


/-- Extract the carried post-state of an outcome. -/
def Outcome.state {α : Type} : Outcome α → α
  | .ok a => a
  | .fault _ a => a
  | .crash a => a

mutual

/-- The `Getter` collaborator: a single-method capability from string key
to a dynamically-typed result. -/
inductive GetterT : Type where
  | mk (get : String → GetterRes)

/-- What `Getter.Get` can return, as discriminated by `fill`'s type
switch: a nested `Getter`, a sequence of `Getter`s, or any other value
(including nil), which is delegated to `To`. -/
inductive GetterRes : Type where
  | val (v : Option GoVal)
  | getter (g : GetterT)
  | getters (gs : List GetterT)

end

/-- Apply the collaborator's single method. -/
def GetterT.get : GetterT → String → GetterRes
  | .mk f, k => f k

/-- Sequentially apply per-field outcomes to the struct's value slots:
slots before the first fault take their new values, the faulting field
keeps the state its own processing left, and later slots stay untouched
(fail fast, no rollback across fields). -/
def combineFill : List GoVal → List (Outcome GoVal) → Outcome (List GoVal)
  | vs, [] => .ok vs
  | [], _ :: _ => .ok []
  | v :: vs, o :: os =>
    match o with
    | .ok nv =>
      (match combineFill vs os with
       | .ok rest => .ok (nv :: rest)
       | .fault e rest => .fault e (nv :: rest)
       | .crash rest => .crash (nv :: rest))
    | .fault e nv => .fault e (nv :: vs)
    | .crash nv => .crash (nv :: vs)

mutual

/-- `Value.fill`, the engine behind `Fill` (`byTag = false`, keyed by field
name) and `FillByTag` (`byTag = true`, keyed by the realized tag value;
untagged fields are skipped, mirroring `FieldsByTag`).  Iterates the
enumerated fields — all of them, exported or not — querying the collaborator
per field and dispatching on the result's shape; the first faulting field
aborts the fill.  Non-struct wrappers enumerate no fields (`fieldsUnsupported`)
and succeed vacuously. -/
def fillCore (byTag : Bool) (key : String) (me : Value) (g : GetterT) : Outcome Value :=
  if me.typeInfo.isStruct then
    match hty : me.typeInfo.type, me.writeVal with
    | some (.structT fs), .structV sfs vs =>
      let outs := (fs.zip vs).attach.map (fun p =>
        match (if byTag then (FieldDecl.tags p.1.1).lookup key
               else some (FieldDecl.fname p.1.1)) with
        | some gname => processField byTag key me.canWrite p.1.1 p.1.2 gname (g.get gname)
        | none => .ok p.1.2)
      (match combineFill vs outs with
       | .ok nvs => .ok { me with writeVal := .structV sfs nvs }
       | .fault e nvs => .fault e { me with writeVal := .structV sfs nvs }
       | .crash nvs => .crash { me with writeVal := .structV sfs nvs })
    | _, _ => .crash me
  else .ok me
termination_by ((match me.typeInfo.type with
                 | some t => sizeOf t
                 | none => 0), 0, 0)
decreasing_by
  have hm := sizeOf_ftype_lt_structT (List.of_mem_zip p.2).1
  simp only [hty]
  exact Prod.Lex.left _ _ hm

/-- One field of `fill`'s loop, from the collaborator's answer to the new
value of the field's slot.  The wrapper dispatch flags (`IsStruct`,
`IsSlice`, `ElemTypeInfo.IsStruct`) are those of `statType` of the field's
declared type, i.e. determined by its resolved base, which the match
inspects directly.  On paths that assign nothing the slot is returned as it
was.  A sub-`Getter` requires a struct (recurse) or slice-of-struct field
(zero it, fill one fresh element, append it — the source discards
`Append`'s own error); a `[]Getter` requires a slice-of-struct (zero, fill
and append one element per entry) or struct field (recurse on the last
entry; an empty sequence leaves the field untouched); anything else is
delegated to `To`. -/
def processField (byTag : Bool) (key : String) (cw : Bool) (f : FieldDecl)
    (slotv : GoVal) (gname : String) (res : GetterRes) : Outcome GoVal :=
  let sub := VField cw f slotv
  let back : Value → GoVal := fun w =>
    if cw && f.exported then rewrapPtr f.ftype w.writeVal else w.writeVal
  match res with
  | .getter g2 =>
    match hrb : resolvedBase f.ftype with
    | .structT _ =>
      (match fillCore byTag key sub g2 with
       | .ok w => .ok (back w)
       | .fault e w => .fault e (back w)
       | .crash w => .crash (back w))
    | .sliceT et =>
      if (statType et).isStruct then
        match sub.zeroFn with
        | .fault e w => .fault e (back w)
        | .crash w => .crash (back w)
        | .ok w1 =>
          (match fillCore byTag key
              (V (some (.ptrV (resolvedBase et) (some (zeroValue (resolvedBase et)))))) g2 with
           | .fault e _ => .fault e (back w1)
           | .crash _ => .crash (back w1)
           | .ok w2 => .ok (back ((w1.appendFn [w2.writeVal]).state)))
      else .fault (.notFillable gname) slotv
    | _ => .fault (.notFillable gname) slotv
  | .getters gs =>
    match hrb : resolvedBase f.ftype with
    | .sliceT et =>
      if (statType et).isStruct then
        match sub.zeroFn with
        | .fault e w => .fault e (back w)
        | .crash w => .crash (back w)
        | .ok w1 =>
          (match fillElems byTag key (resolvedBase et) w1 gs with
           | .ok w => .ok (back w)
           | .fault e w => .fault e (back w)
           | .crash w => .crash (back w))
      else .fault (.notFillable gname) slotv
    | .structT _ =>
      (match gs.getLast? with
       | some gl =>
         (match fillCore byTag key sub gl with
          | .ok w => .ok (back w)
          | .fault e w => .fault e (back w)
          | .crash w => .crash (back w))
       | none => .ok slotv)
    | _ => .fault (.notFillable gname) slotv
  | .val v =>
    (match sub.toOp v with
     | .ok w => .ok (back w)
     | .fault e w => .fault e (back w)
     | .crash w => .crash (back w))
termination_by (sizeOf (FieldDecl.ftype f), 1, 0)
decreasing_by
  · have h1 := sizeOf_resolvedBase_le (FieldDecl.ftype f)
    simp only [VField, statType_type]
    rcases lt_or_eq_of_le h1 with h | h
    · exact Prod.Lex.left _ _ h
    · rw [h]
      exact Prod.Lex.right _ (Prod.Lex.left _ _ (by omega))
  · have h2 := sizeOf_resolvedBase_le (FieldDecl.ftype f)
    have h1 := sizeOf_resolvedBase_le et
    rw [hrb] at h2
    simp only [GoType.sliceT.sizeOf_spec] at h2
    simp only [V, Writable, statType_ptrT, statType_type, resolvedBase_idem]
    exact Prod.Lex.left _ _ (by omega)
  · have h2 := sizeOf_resolvedBase_le (FieldDecl.ftype f)
    have h1 := sizeOf_resolvedBase_le et
    rw [hrb] at h2
    simp only [GoType.sliceT.sizeOf_spec] at h2
    rcases Nat.lt_or_ge (sizeOf (resolvedBase et) + 1) (sizeOf (FieldDecl.ftype f)) with h | h
    · exact Prod.Lex.left _ _ h
    · have : sizeOf (resolvedBase et) + 1 = sizeOf (FieldDecl.ftype f) := by omega
      rw [this]
      exact Prod.Lex.right _ (Prod.Lex.left _ _ (by omega))
  · have h1 := sizeOf_resolvedBase_le (FieldDecl.ftype f)
    simp only [VField, statType_type]
    rcases lt_or_eq_of_le h1 with h | h
    · exact Prod.Lex.left _ _ h
    · rw [h]
      exact Prod.Lex.right _ (Prod.Lex.left _ _ (by omega))

/-- The per-entry loop of the `[]Getter` → slice-of-struct case: construct
a fresh element wrapper, fill it (aborting the whole fill on its error) and
append it to the field, discarding `Append`'s own error as the source
does. -/
def fillElems (byTag : Bool) (key : String) (bt : GoType) (w : Value) :
    List GetterT → Outcome Value
  | [] => .ok w
  | g2 :: rest =>
    match fillCore byTag key (V (some (.ptrV bt (some (zeroValue bt))))) g2 with
    | .fault e _ => .fault e w
    | .crash _ => .crash w
    | .ok w2 => fillElems byTag key bt ((w.appendFn [w2.writeVal]).state) rest
termination_by gs => (sizeOf bt + 1, 0, gs.length)
decreasing_by
  · have h1 := sizeOf_resolvedBase_le bt
    simp only [V, Writable, statType_ptrT, statType_type, resolvedBase_idem]
    exact Prod.Lex.left _ _ (by omega)
  · exact Prod.Lex.right _ (Prod.Lex.right _ (by simp))

end

/-- `Value.Fill` with receiver: the first statement `me.Fields()`
dereferences a nil receiver's method slot — a panic. -/
def ValueFill : Option Value → GetterT → Outcome (Option Value)
  | none, _ => .crash none
  | some me, g => liftOpt (fillCore false "" me g)

/-- `Value.FillByTag` with receiver: same nil-receiver dereference. -/
def ValueFillByTag : Option Value → String → GetterT → Outcome (Option Value)
  | none, _, _ => .crash none
  | some me, key, g => liftOpt (fillCore true key me g)


/-! ## Helper lemmas for the claims -/

/-- Following an all-nil chain lands on the zero value of the resolved base. -/
theorem followChain_none : ∀ t : GoType, followChain t none = zeroValue (resolvedBase t) := by
  intro t
  induction t using resolvedBase.induct
  · rename_i t ih
    simp only [followChain, resolvedBase]
    exact ih
  · rename_i t h
    cases t <;>
      first
        | exact ((h _ rfl).elim)
        | simp [followChain, resolvedBase]

/-- A struct type is never classified with the Slice kind. -/
theorem ne_sliceT_of_kind {t : GoType} (h : kindOfType t ≠ .sliceK) (et : GoType) :
    t ≠ .sliceT et := by
  intro he
  exact h (by rw [he]; rfl)

/-! ## C7 — classification side effects -/

/-- C7 counterexample: classifying a settable nil pointer chain through
`Stat` leaves the caller's chain exactly as it was — still nil — rather
than mutating it into a non-nil zero-valued chain as the claim asserts
(`Stat` only reads `reflect.TypeOf` of its argument). -/
theorem claim_C7_counterexample :
    (statEffect (some (.ptrV .intT none))).2 = some (GoVal.ptrV .intT none) ∧
    (statEffect (some (.ptrV .intT none))).2 ≠ some (GoVal.ptrV .intT (some (.numV .intT 0))) := by
  constructor
  · rfl
  · intro h
    simp [statEffect] at h

/-- C7 amended: classification never mutates the classified value.  `Stat`
reads only the argument's dynamic type and returns it untouched, and
`StatType` resolves pointer chains purely at the type level
(`statType (ptrT t) = statType t`); the chain-walking `reflect.New`
temporary inside `StatType` is invisible to the caller.  Caller-visible
allocation of nil chains happens in wrapper construction and in
`FieldByIndex`, not in classification. -/
theorem claim_C7_amended :
    (∀ v : Option GoVal, (statEffect v).2 = v) ∧
    (∀ t : GoType, statType (.ptrT t) = statType t) ∧
    (∀ v : Option GoVal, (statEffect v).1 = stat v) := by
  exact ⟨fun _ => rfl, fun _ => rfl, fun _ => rfl⟩

/-! ## C9 — nil-receiver behaviour -/

/-- C9 counterexample: `Fields` on an absent wrapper does not return a nil
or empty enumeration — its body dereferences the nil receiver's method slot
and panics. -/
theorem claim_C9_counterexample : ValueFields none = OpResult.crash := rfl

/-- C9 amended: of the operations invoked on an absent wrapper, `Append`,
`Zero`, `NewElem` and `FieldByIndex` return the nil-receiver fault, but
`Fields`, `FieldsByTag`, `To`, `Fill` and `FillByTag` dereference the nil
receiver (method slot or `original` member) and panic. -/
theorem claim_C9_amended :
    (∀ items, ValueAppend none items = .fault .nilReceiver none) ∧
    (ValueZero none = .fault .nilReceiver none) ∧
    (ValueNewElem none = .fault .nilReceiver) ∧
    (∀ idx, ValueFieldByIndex none idx = .fault .nilReceiver) ∧
    (ValueFields none = .crash) ∧
    (∀ k, ValueFieldsByTag none k = .crash) ∧
    (∀ a, ValueTo none a = .crash none) ∧
    (∀ g, ValueFill none g = .crash none) ∧
    (∀ k g, ValueFillByTag none k g = .crash none) := by
  refine ⟨fun _ => rfl, rfl, rfl, fun _ => rfl, rfl, fun _ => rfl, fun _ => rfl,
    fun _ => rfl, fun _ _ => rfl⟩

/-! ## C6 — FieldByIndex bounds handling -/

/-- C6 (code bug): on `V(&struct{A int})`, an index equal to the number of
fields (`[1]`) and a negative index (`[-1]`) slip past the source's
`n > v.NumField()` check and panic inside `reflect.Value.Field`, although
the method's own documentation promises errors instead of panics; an index
strictly greater than the field count (`[2]`) and a descent into a
non-struct (`V(&int)` with `[0]`) do produce the documented faults. -/
theorem claim_C6_code_bug :
    (ValueFieldByIndex
      (some (V (some (.ptrV (.structT [("A", true, [], .intT)])
        (some (.structV [("A", true, [], .intT)] [.numV .intT 0])))))) [1]
      = .crash) ∧
    (ValueFieldByIndex
      (some (V (some (.ptrV (.structT [("A", true, [], .intT)])
        (some (.structV [("A", true, [], .intT)] [.numV .intT 0])))))) [-1]
      = .crash) ∧
    (ValueFieldByIndex
      (some (V (some (.ptrV (.structT [("A", true, [], .intT)])
        (some (.structV [("A", true, [], .intT)] [.numV .intT 0])))))) [2]
      = .fault (.indexOutOfBounds 1 2)) ∧
    (ValueFieldByIndex (some (V (some (.ptrV .intT (some (.numV .intT 3)))))) [0]
      = .fault .notStruct) := by
  refine ⟨?_, ?_, ?_, ?_⟩ <;>
    simp [ValueFieldByIndex, V, Writable, followChain, statType, kindOfType,
          GoVal.typeOf, fbiWalk, elemInfoOf, scalarKind]


/-- Classification only depends on the resolved base type. -/
theorem statType_eq_resolvedBase : ∀ t : GoType, statType t = statType (resolvedBase t) := by
  intro t
  induction t using resolvedBase.induct
  · rename_i t ih
    rw [statType_ptrT, ih]
    simp [resolvedBase]
  · rename_i t h
    cases t <;>
      first
        | exact ((h _ rfl).elim)
        | simp [resolvedBase]

/-- No type has the Invalid kind. -/
theorem kindOfType_ne_invalid : ∀ t : GoType, kindOfType t ≠ .invalid := by
  intro t
  cases t <;> simp [kindOfType]

/-- The kind recorded by `StatType` is that of the resolved base. -/
theorem statType_kind : ∀ t : GoType, (statType t).kind = kindOfType (resolvedBase t) := by
  intro t
  induction t using resolvedBase.induct
  · rename_i t ih
    rw [statType_ptrT, ih]
    simp [resolvedBase]
  · rename_i t h
    cases t <;>
      first
        | exact ((h _ rfl).elim)
        | simp [statType, resolvedBase]

/-! ## C8 — nil and Other-classified sources of To -/

/-- C8 counterexample: a channel value — classification Other — assigned
into an integer destination does not succeed-at-zero as claimed: it falls
through to the coercion primitives and returns a Coercion fault (the
destination is left at zero only because of the initial destructive
reset). -/
theorem claim_C8_counterexample :
    toFn .intT (some (.chanV .boolT)) = .fault (.coercion .intK) (zeroValue .intT) := by
  simp [toFn, stat, statType, kindOfType, GoVal.typeOf, derefVal, coerce, numClass,
        scalarKind, zeroValue]

/-- C8 amended: `To` succeeds leaving the destination at zero for an
untyped-nil source, and for a typed nil-pointer source whose resolved type
is not the destination's declared type (otherwise the assignable fast path
reaches `reflect.Set` first); a non-nil source of classification Other
(e.g. a channel) is *not* short-circuited: it proceeds to the coercion
primitives and faults on a scalar destination, the destination remaining at
zero from the initial reset. -/
theorem claim_C8_amended :
    (∀ t : GoType, toFn t none = .ok (zeroValue t)) ∧
    (∀ t et : GoType, ((statType (.ptrT et)).type == some t) = false →
      toFn t (some (.ptrV et none)) = .ok (zeroValue t)) ∧
    (∀ ec : GoType, toFn .intT (some (.chanV ec)) = .fault (.coercion .intK) (zeroValue .intT)) := by
  refine ⟨fun t => by simp [toFn], fun t et h => ?_, fun ec => ?_⟩
  · have hk : ((statType (.ptrT et)).kind == GoKind.invalid) = false := by
      rw [statType_kind]
      simp [kindOfType_ne_invalid]
    rw [toFn]
    simp only [stat, GoVal.typeOf, hk, h, Bool.false_and, Bool.false_eq_true, if_false,
      derefVal]
  · rw [toFn]
    simp [stat, statType, kindOfType, GoVal.typeOf, derefVal, coerce, numClass, scalarKind]

/-- C8 witness: the nil-pointer clause of the amended theorem applied at a
concrete destination type and pointee type. -/
theorem claim_C8_witness :
    ((statType (.ptrT .stringT)).type == some GoType.intT) = false ∧
    toFn .intT (some (.ptrV .stringT none)) = .ok (zeroValue .intT) := by
  have h : ((statType (.ptrT .stringT)).type == some GoType.intT) = false := by
    simp [statType, GoType.beq]
  exact ⟨h, claim_C8_amended.2.1 .intT .stringT h⟩


/-! ## C5 — capabilities wired for Map and Slice classifications -/

/-- C5 counterexample: on a map-classified writable wrapper, `Append` fails
with exactly the unsupported-capability fault — `V` wires `appendSupported`
only on the Slice classification, not for Map. -/
theorem claim_C5_counterexample :
    ValueAppend (some (V (some (.ptrV (.mapT .stringT .intT) (some (.mapV .stringT .intT))))))
        [.numV .intT 1]
      = .fault (.unsupported "Append")
          (some (V (some (.ptrV (.mapT .stringT .intT) (some (.mapV .stringT .intT)))))) := by
  simp [ValueAppend, liftOpt, V, Writable, followChain, statType, kindOfType,
        Value.appendFn, elemInfoOf]

/-- C5 amended: for a Map or Slice classification, `V` attaches the element
descriptor and enables element construction (`NewElem`), but the append
capability is enabled only for Slice: `Append` on a map-classified wrapper
fails with the unsupported-capability fault, while on a slice-classified
wrapper it is wired to the real implementation (an empty append succeeds,
leaving the slice as is). -/
theorem claim_C5_amended :
    (∀ (t k e : GoType) (inner : Option GoVal),
      resolvedBase t = .mapT k e →
      ((V (some (.ptrV t inner))).typeInfo.isMap = true ∧
       (V (some (.ptrV t inner))).typeInfo.elemType = some e ∧
       (V (some (.ptrV t inner))).elemTypeInfo = statType e ∧
       (V (some (.ptrV t inner))).newElemFn = .ok (V (some (.ptrV e (some (zeroValue e))))) ∧
       ∀ items, (V (some (.ptrV t inner))).appendFn items =
         .fault (.unsupported "Append") (V (some (.ptrV t inner))))) ∧
    (∀ (t e : GoType),
      resolvedBase t = .sliceT e →
      ((V (some (.ptrV t none))).typeInfo.isSlice = true ∧
       (V (some (.ptrV t none))).typeInfo.elemType = some e ∧
       (V (some (.ptrV t none))).elemTypeInfo = statType e ∧
       (V (some (.ptrV t none))).newElemFn = .ok (V (some (.ptrV e (some (zeroValue e))))) ∧
       (V (some (.ptrV t none))).appendFn []
         = .ok { V (some (.ptrV t none)) with writeVal := .sliceV e [] })) := by
  constructor
  · intro t k e inner h
    have hst : statType t = statType (.mapT k e) := by
      rw [statType_eq_resolvedBase t, h]
    refine ⟨?_, ?_, ?_, ?_, ?_⟩ <;>
      simp [V, Writable, hst, statType, kindOfType, elemInfoOf, Value.newElemFn,
            Value.appendFn]
  · intro t e h
    have hst : statType t = statType (.sliceT e) := by
      rw [statType_eq_resolvedBase t, h]
    have hfc : followChain t none = GoVal.sliceV e [] := by
      rw [followChain_none, h]
      simp [zeroValue]
    refine ⟨?_, ?_, ?_, ?_, ?_⟩ <;>
      simp [V, Writable, hst, hfc, statType, kindOfType, elemInfoOf, Value.newElemFn,
            Value.appendFn, appendLoop]

/-- C5 witness: the amended theorem applied at `map[string]int` and
`[]bool`. -/
theorem claim_C5_witness :
    resolvedBase (.mapT .stringT .intT) = GoType.mapT .stringT .intT ∧
    (V (some (.ptrV (.mapT .stringT .intT) none))).typeInfo.isMap = true ∧
    resolvedBase (.sliceT .boolT) = GoType.sliceT .boolT ∧
    (V (some (.ptrV (.sliceT .boolT) none))).typeInfo.isSlice = true := by
  have h1 : resolvedBase (.mapT .stringT .intT) = GoType.mapT .stringT .intT := by
    simp [resolvedBase]
  have h2 : resolvedBase (.sliceT .boolT) = GoType.sliceT .boolT := by
    simp [resolvedBase]
  exact ⟨h1, (claim_C5_amended.1 _ _ _ none h1).1, h2, (claim_C5_amended.2 _ _ h2).1⟩


/-! ## C3 — sequence collapse onto non-slice destinations -/

/-- C3: for a writable destination whose kind is not Slice, assigning a
sequence source reduces to assigning its last element, and assigning an
empty sequence succeeds leaving the destination at its zero value. -/
theorem claim_C3 : ∀ (t et : GoType), kindOfType t ≠ .sliceK →
    (toFn t (some (.sliceV et [])) = .ok (zeroValue t)) ∧
    (∀ (ws : List GoVal) (w : GoVal),
      toFn t (some (.sliceV et (ws ++ [w]))) = toFn t (some w)) := by
  intro t et h
  have hne : (some (GoType.sliceT et) == some t) = false := by
    simp only [beq_eq_false_iff_ne, ne_eq, Option.some.injEq]
    exact fun he => (ne_sliceT_of_kind h et) he.symm
  constructor
  · rw [toFn]
    cases t <;> simp_all [stat, statType, kindOfType, GoVal.typeOf, derefVal]
  · intro ws w
    rw [toFn]
    cases t <;>
      simp_all [stat, statType, kindOfType, GoVal.typeOf, derefVal] <;>
      split <;> rename_i hl <;> rw [List.getLast?_concat] at hl <;> cases hl <;> rfl

/-- C3 witness: the collapse theorem at an integer destination: the empty
sequence zeroes it and `["7", "9"]` reduces to assigning `"9"`. -/
theorem claim_C3_witness :
    kindOfType GoType.intT ≠ GoKind.sliceK ∧
    toFn .intT (some (.sliceV .stringT [])) = .ok (zeroValue .intT) ∧
    toFn .intT (some (.sliceV .stringT [.stringV "7", .stringV "9"]))
      = toFn .intT (some (.stringV "9")) := by
  have h : kindOfType GoType.intT ≠ GoKind.sliceK := by simp [kindOfType]
  refine ⟨h, (claim_C3 _ _ h).1, ?_⟩
  have h2 := (claim_C3 .intT .stringT h).2 [.stringV "7"] (.stringV "9")
  simpa using h2

/-! ## C4 — textual float truncation and unsigned clamping -/

/-- C4: assigning the string "1.59" to any integer-typed destination
parses it as a float and truncates toward zero, storing 1; assigning
"-3.14" to any unsigned-integer-typed destination stores 0 (clamped, not
wrapped). -/
theorem claim_C4 :
    (∀ (t : GoType) (u : Bool) (w : Nat), numClass t = some (u, w) →
      toFn t (some (.stringV "1.59")) = .ok (.numV t 1)) ∧
    (∀ (t : GoType) (w : Nat), numClass t = some (true, w) →
      toFn t (some (.stringV "-3.14")) = .ok (.numV t 0)) := by
  constructor
  · intro t u w h
    cases t <;>
      simp_all [toFn, stat, statType, kindOfType, GoVal.typeOf, derefVal, coerce, numClass,
        normNum, parseIntStr, parseFloatTrunc, decDigits, digitsVal, scalarKind,
        List.splitOn, List.splitOnP, List.splitOnP.go] <;>
      (try obtain ⟨hu, hw⟩ := h) <;> (try subst hw) <;> decide
  · intro t w h
    cases t <;>
      simp_all [toFn, stat, statType, kindOfType, GoVal.typeOf, derefVal, coerce, numClass,
        normNum, parseIntStr, parseFloatTrunc, decDigits, digitsVal, scalarKind,
        List.splitOn, List.splitOnP, List.splitOnP.go] <;>
      (try obtain ⟨hu, hw⟩ := h) <;> (try subst hw) <;> decide

/-- C4 witness: the truncation theorem applied at `int` and `uint`. -/
theorem claim_C4_witness :
    numClass GoType.intT = some (false, 64) ∧
    toFn .intT (some (.stringV "1.59")) = .ok (.numV .intT 1) ∧
    numClass GoType.uintT = some (true, 64) ∧
    toFn .uintT (some (.stringV "-3.14")) = .ok (.numV .uintT 0) :=
  ⟨rfl, claim_C4.1 _ _ _ rfl, rfl, claim_C4.2 _ _ rfl⟩


/-! ## C1 — fail-clean: an error return leaves the destination at zero -/

/-- The slice append loop's fault carries the zeroed destination
(`me.Zero()` before `return err`). -/
theorem combineSlice_fault : ∀ {et : GoType} {rs : List (Outcome GoVal)} {acc : List GoVal}
    {e : Err} {v : GoVal}, combineSlice et rs acc = .fault e v → v = .sliceV et [] := by
  intro et rs
  induction rs with
  | nil =>
    intro acc e v h
    simp [combineSlice] at h
  | cons r rest ih =>
    intro acc e v h
    cases r with
    | ok w =>
      simp only [combineSlice] at h
      split at h
      · exact ih h
      · simp at h
    | fault e2 w2 =>
      simp only [combineSlice] at h
      cases h
      rfl
    | crash w2 =>
      simp only [combineSlice] at h
      cases h

/-- Central fail-clean lemma: whenever the core assignment returns an
error, the destination's final value is the zero value of its type — the
destination is zeroed first, the coercion primitives write nothing on
failure, and the slice branch re-zeroes before propagating an element
error. -/
theorem toFn_fault_zero : ∀ (n : Nat) (t : GoType) (a : Option GoVal), sizeOf a ≤ n →
    ∀ {e : Err} {v : GoVal}, toFn t a = .fault e v → v = zeroValue t := by
  intro n
  induction n with
  | zero =>
    intro t a hn
    cases a <;> simp at hn
  | succ n ih =>
    intro t a hn e v h
    rw [toFn.eq_def] at h
    cases a with
    | none => simp at h
    | some av =>
      simp only at h
      split at h
      · simp at h
      · split at h
        · split at h <;> simp at h
        · split at h
          · simp at h
          · rename_i dv heq
            split at h
            · rename_i et
              split at h
              · simp at h
              · have h2 := combineSlice_fault h
                rw [h2]
                simp [zeroValue]
            · split at h
              · split at h
                · split at h
                  · rename_i e2 vs2 l hl
                    have hml : l ∈ vs2 := mem_of_getLast?_eq hl
                    have h3 : sizeOf l < sizeOf vs2 := List.sizeOf_lt_of_mem hml
                    have h4 : sizeOf (GoVal.sliceV e2 vs2) ≤ sizeOf av :=
                      sizeOf_derefVal_le heq
                    have h5 : sizeOf (some l) ≤ n := by
                      simp only [Option.some.sizeOf_spec] at hn ⊢
                      simp only [GoVal.sliceV.sizeOf_spec] at h4
                      omega
                    exact ih _ _ h5 h
                  · simp at h
                · simp at h
              · split at h
                · simp at h
                · cases h
                  rfl

/-- C1: for every writable destination wrapper, whenever `To` returns an
error the destination has been left at the zero value of its type — it is
zeroed before any assignment, the coercion primitives write nothing on
failure, and a slice-element failure re-zeroes before the error is
propagated, so an error return never exposes a partially written
destination. -/
theorem claim_C1 : ∀ (me : Value) (arg : Option GoVal) (e : Err) (me2 : Value),
    me.canWrite = true → me.originalNil = false →
    me.toOp arg = .fault e me2 →
    ∃ t, me.typeInfo.type = some t ∧ me2.writeVal = zeroValue t := by
  intro me arg e me2 hcw hon h
  rw [Value.toOp] at h
  rw [if_neg (by simp [hon])] at h
  split at h
  · rename_i e3 me3 hz
    rw [Value.zeroFn, if_pos hcw] at hz
    split at hz <;> simp at hz
  · rename_i me3 hz
    simp at h
  · rename_i me3 hz
    split at h
    · rename_i t ht
      split at h
      · simp at h
      · rename_i e4 v4 htf
        cases h
        refine ⟨t, ht, ?_⟩
        simpa using toFn_fault_zero (sizeOf arg) t arg le_rfl htf
      · simp at h
    · simp at h

/-- C1 witness: a concrete writable `int` destination holding 7 receives a
non-numeric string; `To` faults and the destination reads zero. -/
theorem claim_C1_witness :
    (V (some (.ptrV .intT (some (.numV .intT 7))))).canWrite = true ∧
    (V (some (.ptrV .intT (some (.numV .intT 7))))).originalNil = false ∧
    (V (some (.ptrV .intT (some (.numV .intT 7))))).toOp (some (.stringV "x"))
      = .fault (.coercion .intK)
          { V (some (.ptrV .intT (some (.numV .intT 7)))) with writeVal := .numV .intT 0 } ∧
    ∃ t, (V (some (.ptrV .intT (some (.numV .intT 7))))).typeInfo.type = some t ∧
      ({ V (some (.ptrV .intT (some (.numV .intT 7)))) with
          writeVal := GoVal.numV .intT 0 }).writeVal = zeroValue t := by
  have hcw : (V (some (.ptrV .intT (some (.numV .intT 7))))).canWrite = true := by
    simp [V, Writable]
  have hon : (V (some (.ptrV .intT (some (.numV .intT 7))))).originalNil = false := by
    simp [V, Writable]
  have htoOp : (V (some (.ptrV .intT (some (.numV .intT 7))))).toOp (some (.stringV "x"))
      = .fault (.coercion .intK)
          { V (some (.ptrV .intT (some (.numV .intT 7)))) with writeVal := .numV .intT 0 } := by
    simp [Value.toOp, V, Writable, followChain, Value.zeroFn, statType, kindOfType,
          zeroValue, elemInfoOf, toFn, stat, GoVal.typeOf, derefVal, coerce, numClass,
          scalarKind, parseIntStr, parseFloatTrunc, decDigits, digitsVal,
          List.splitOn, List.splitOnP, List.splitOnP.go]
  exact ⟨hcw, hon, htoOp, claim_C1 _ _ _ _ hcw hon htoOp⟩


/-! ## C10 — Append is all-or-nothing and never zeroes -/

/-- A successful append loop coerces exactly one element per item. -/
theorem appendLoop_length : ∀ {et : GoType} {items news : List GoVal},
    appendLoop et items = .ok news → news.length = items.length := by
  intro et items
  induction items with
  | nil =>
    intro news h
    simp only [appendLoop] at h
    cases h
    rfl
  | cons i rest ih =>
    intro news h
    simp only [appendLoop] at h
    split at h
    · split at h
      · cases h
        simp [ih ‹_›]
      · simp at h
    · simp at h
    · simp at h

/-- C10: on a slice-classified writable wrapper, `Append` either coerces
and appends every item — the new elements go after the existing contents —
or appends nothing and returns an error with the backing slice exactly
unchanged (not zeroed): coerced elements accumulate in a fresh slice
committed only after all items succeed. -/
theorem claim_C10 : ∀ (me : Value) (items : List GoVal) (et : GoType) (old : List GoVal),
    me.canWrite = true → me.typeInfo.isSlice = true →
    me.typeInfo.elemType = some et → me.writeVal = .sliceV et old →
    (∃ news, me.appendFn items = .ok { me with writeVal := .sliceV et (old ++ news) } ∧
       news.length = items.length) ∨
    (∃ e, me.appendFn items = .fault e me) := by
  intro me items et old hcw hsl hel hwv
  rw [Value.appendFn, if_pos hsl, hel]
  rcases hl : appendLoop et items with e | news
  · right
    exact ⟨e, by simp only [hl]⟩
  · left
    refine ⟨news, ?_, appendLoop_length hl⟩
    simp [hl, hcw, hwv]

/-- C10 witness: appending `"4"` to a writable `[]int` holding `[7]`
commits `[7, 4]`. -/
theorem claim_C10_witness :
    (V (some (.ptrV (.sliceT .intT) (some (.sliceV .intT [.numV .intT 7]))))).canWrite = true ∧
    (V (some (.ptrV (.sliceT .intT) (some (.sliceV .intT [.numV .intT 7]))))).typeInfo.isSlice
      = true ∧
    (V (some (.ptrV (.sliceT .intT)
      (some (.sliceV .intT [.numV .intT 7]))))).typeInfo.elemType = some GoType.intT ∧
    (V (some (.ptrV (.sliceT .intT)
      (some (.sliceV .intT [.numV .intT 7]))))).writeVal = .sliceV .intT [.numV .intT 7] ∧
    ((∃ news,
       (V (some (.ptrV (.sliceT .intT)
         (some (.sliceV .intT [.numV .intT 7]))))).appendFn [.stringV "4"]
         = .ok { V (some (.ptrV (.sliceT .intT) (some (.sliceV .intT [.numV .intT 7])))) with
             writeVal := .sliceV .intT ([.numV .intT 7] ++ news) } ∧
       news.length = [GoVal.stringV "4"].length) ∨
     (∃ e,
       (V (some (.ptrV (.sliceT .intT)
         (some (.sliceV .intT [.numV .intT 7]))))).appendFn [.stringV "4"]
         = .fault e (V (some (.ptrV (.sliceT .intT)
             (some (.sliceV .intT [.numV .intT 7]))))))) := by
  have h1 : (V (some (.ptrV (.sliceT .intT)
      (some (.sliceV .intT [.numV .intT 7]))))).canWrite = true := by
    simp [V, Writable]
  have h2 : (V (some (.ptrV (.sliceT .intT)
      (some (.sliceV .intT [.numV .intT 7]))))).typeInfo.isSlice = true := by
    simp [V, Writable, statType, kindOfType]
  have h3 : (V (some (.ptrV (.sliceT .intT)
      (some (.sliceV .intT [.numV .intT 7]))))).typeInfo.elemType = some GoType.intT := by
    simp [V, Writable, statType]
  have h4 : (V (some (.ptrV (.sliceT .intT)
      (some (.sliceV .intT [.numV .intT 7]))))).writeVal = .sliceV .intT [.numV .intT 7] := by
    simp [V, Writable, followChain]
  exact ⟨h1, h2, h3, h4, claim_C10 _ _ _ _ h1 h2 h3 h4⟩


/-! ## C2 — unexported fields in enumeration and Fill -/

/-- C2 counterexample: on `struct{A int; b int}` — one exported, one
unexported field — both the type descriptor's field list and the wrapper's
field enumeration contain the unexported field `b`: the struct branches of
`StatType` and `fieldsSupported` iterate every declared field with no
exported-only filter. -/
theorem claim_C2_counterexample :
    ((statType (.structT [("A", true, [], .intT), ("b", false, [], .intT)])).structFields.map
        FieldDecl.fname = ["A", "b"]) ∧
    (((V (some (.ptrV (.structT [("A", true, [], .intT), ("b", false, [], .intT)])
        (some (.structV [("A", true, [], .intT), ("b", false, [], .intT)]
          [.numV .intT 1, .numV .intT 2]))))).fieldsFn).map Field.name = ["A", "b"]) := by
  constructor
  · simp [statType, FieldDecl.fname]
  · simp [V, Writable, followChain, statType, kindOfType, Value.fieldsFn, VField,
          elemInfoOf, FieldDecl.fname]

/-- C2 amended: the type descriptor's field list and the wrapper's field
enumeration contain every declared field, exported and unexported alike,
and `Fill` therefore attempts unexported fields too: on
`struct{A int; b int}` with a collaborator supplying `5` for every key,
`Fill` assigns `A`, then attempts `b` and aborts with the unsupported
fault its non-writable sub-wrapper's `Zero()` produces, leaving `b`'s old
value in place. -/
theorem claim_C2_amended :
    (∀ fs : List FieldDecl, (statType (.structT fs)).structFields = fs) ∧
    (∀ (me : Value) (fs : List FieldDecl) (vs : List GoVal),
      me.typeInfo = statType (.structT fs) → me.writeVal = .structV fs vs →
      vs.length = fs.length →
      (me.fieldsFn).map Field.name = fs.map FieldDecl.fname) ∧
    (ValueFill
      (some (V (some (.ptrV (.structT [("A", true, [], .intT), ("b", false, [], .intT)])
        (some (.structV [("A", true, [], .intT), ("b", false, [], .intT)]
          [.numV .intT 1, .numV .intT 2]))))))
      (GetterT.mk (fun _ => .val (some (.numV .intT 5))))
      = .fault (.unsupported "Zero")
          (some { V (some (.ptrV (.structT [("A", true, [], .intT), ("b", false, [], .intT)])
            (some (.structV [("A", true, [], .intT), ("b", false, [], .intT)]
              [.numV .intT 1, .numV .intT 2])))) with
            writeVal := .structV [("A", true, [], .intT), ("b", false, [], .intT)]
              [.numV .intT 5, .numV .intT 2] })) := by
  refine ⟨fun fs => by simp [statType], ?_, ?_⟩
  · intro me fs vs hti hwv hlen
    rw [Value.fieldsFn, hti, hwv]
    have hstruct : (statType (.structT fs)).isStruct = true := by simp [statType, kindOfType]
    rw [if_pos hstruct]
    have hsf : (statType (.structT fs)).structFields = fs := by simp [statType]
    rw [hsf]
    rw [List.map_map]
    have : (Field.name ∘ fun fv : FieldDecl × GoVal =>
        ({ value := VField me.canWrite fv.1 fv.2, name := FieldDecl.fname fv.1,
           exported := FieldDecl.exported fv.1, tags := FieldDecl.tags fv.1 } : Field))
        = FieldDecl.fname ∘ Prod.fst := rfl
    rw [this, ← List.map_map, List.map_fst_zip _ _ (le_of_eq hlen.symm)]
  · simp [ValueFill, liftOpt, fillCore, processField, V, Writable, followChain, statType,
      kindOfType, GoVal.typeOf, elemInfoOf, VField, FieldDecl.fname, FieldDecl.exported,
      FieldDecl.tags, FieldDecl.ftype, GetterT.get, combineFill, resolvedBase, rewrapPtr,
      Value.toOp, Value.zeroFn, zeroValue, toFn, stat, derefVal, coerce, numClass,
      scalarKind, Outcome.state, List.attach]

/-- C2 witness: the general enumeration clause applied to the concrete
mixed struct, listing both `A` and `b`. -/
theorem claim_C2_witness :
    ((V (some (.ptrV (.structT [("A", true, [], .intT), ("b", false, [], .intT)])
      (some (.structV [("A", true, [], .intT), ("b", false, [], .intT)]
        [.numV .intT 1, .numV .intT 2]))))).typeInfo
      = statType (.structT [("A", true, [], .intT), ("b", false, [], .intT)])) ∧
    ((V (some (.ptrV (.structT [("A", true, [], .intT), ("b", false, [], .intT)])
      (some (.structV [("A", true, [], .intT), ("b", false, [], .intT)]
        [.numV .intT 1, .numV .intT 2]))))).writeVal
      = .structV [("A", true, [], .intT), ("b", false, [], .intT)]
          [.numV .intT 1, .numV .intT 2]) ∧
    (((V (some (.ptrV (.structT [("A", true, [], .intT), ("b", false, [], .intT)])
      (some (.structV [("A", true, [], .intT), ("b", false, [], .intT)]
        [.numV .intT 1, .numV .intT 2]))))).fieldsFn).map Field.name
      = [("A", true, ([] : List (String × String)), GoType.intT),
         ("b", false, ([] : List (String × String)), GoType.intT)].map FieldDecl.fname) := by
  have h1 : ((V (some (.ptrV (.structT [("A", true, [], .intT), ("b", false, [], .intT)])
      (some (.structV [("A", true, [], .intT), ("b", false, [], .intT)]
        [.numV .intT 1, .numV .intT 2]))))).typeInfo
      = statType (.structT [("A", true, [], .intT), ("b", false, [], .intT)])) := by
    simp [V, Writable, elemInfoOf, statType]
  have h2 : ((V (some (.ptrV (.structT [("A", true, [], .intT), ("b", false, [], .intT)])
      (some (.structV [("A", true, [], .intT), ("b", false, [], .intT)]
        [.numV .intT 1, .numV .intT 2]))))).writeVal
      = .structV [("A", true, [], .intT), ("b", false, [], .intT)]
          [.numV .intT 1, .numV .intT 2]) := by
    simp [V, Writable, followChain]
  exact ⟨h1, h2, claim_C2_amended.2.1 _ _ _ h1 h2 rfl⟩

end SetPkg
